import Mathlib

/-!
Shallow embedding of the naija-tax-scheduler repository
(src/app/scheduler/run_once.py, src/app/scheduler/run_jobs.py,
src/app/scheduler/__main__.py).

Conventions of the embedding:

* `datetime` values are integers counting seconds (UTC); `timedelta(days=d)`
  is `d * day` with `day = 86400`.  Calendar dates (the `day` column of the
  `daily_question_usage` table) are integers counting days.
* `datetime.fromisoformat` is standard-library code, abstracted by its
  result: a timestamp-bearing JSON field is `TsVal.str p` where `p` is the
  parse result (`none` exactly when the string is malformed and the library
  call raises, which `_parse_iso` turns into `None`).
* Python `int(v)` on a string is modelled by `String.toInt?`; `.strip()` by
  `String.pyStrip`.
* A remote call either succeeds or raises; which one is chosen by a fault
  assignment `Faults`, fixed for the run.  Calls wrapped in
  `try/except Exception` in the source are modelled by `attemptWrite`
  (never raises; the effect is dropped on a fault); calls that are not
  wrapped propagate the failure as `Except.error ()`.
* The database is the record `DB`; every remote call is also logged in a
  trace so that the order and the number of calls can be stated.
-/

/-- A Python value stored in a numeric plan column (`duration_days`,
`grace_days`): SQL null / absent key, an integer, or a string. -/
inductive PyVal where
  | vnull
  | vint (n : Int)
  | vstr (s : String)
deriving Repr, DecidableEq

/-- Truthiness of a Python value, as used by `v or d`. -/
def pyTruthy : PyVal → Bool
  | .vnull => false
  | .vint n => n != 0
  | .vstr s => s != ""

/-- Result of Python `int(v)`: `none` when `int` raises. -/
def pyToInt : PyVal → Option Int
  | .vnull => none
  | .vint n => some n
  | .vstr s => s.toInt?

/-- Evaluation of `int(v or d)` under a `try/except` that falls back to `d`
(run_once.py lines 60-63 and 71-74, run_jobs.py lines 56-59 and 184-187). -/
def intOrDefault (v : PyVal) (d : Int) : Int :=
  if pyTruthy v then (pyToInt v).getD d else d

/-- A JSON field that may carry a timestamp: SQL null, a string (carrying the
result of parsing it with `_parse_iso`), or a value of some other type. -/
inductive TsVal where
  | null
  | str (parsed : Option Int)
  | other
deriving Repr, DecidableEq

/-- The pattern `_parse_iso(v) if isinstance(v, str) else None` (run_once.py
line 149 and 187, run_jobs.py lines 136 and 176); `_parse_iso` itself
(run_once.py lines 21-26) returns the library parse on strings and `None`
whenever parsing raises. -/
def parseTs : TsVal → Option Int
  | .str p => p
  | _ => none

/-- Whether the field is SQL null (the `.is_("...", "null")` filter). -/
def TsVal.isNull : TsVal → Bool
  | .null => true
  | _ => false

/-- Python `.strip()`: drop whitespace characters from both ends of the
string.  (A direct analogue of `String.trim`, written by structural
recursion so that concrete instances evaluate.) -/
def String.pyStrip (s : String) : String :=
  ⟨((s.data.dropWhile Char.isWhitespace).reverse.dropWhile Char.isWhitespace).reverse⟩

/-- Seconds in one day: `timedelta(days=d)` is `d * day`. -/
def day : Int := 86400

/-- A row of the `user_subscriptions` table.  `id` is the store-assigned
primary key; it is empty on a freshly built insert payload, which carries no
id. -/
structure SubRow where
  id : String
  account_id : String
  plan_code : Option String
  status : String
  is_active : Bool
  started_at : TsVal
  expires_at : TsVal
  pending_plan_code : Option String
  pending_starts_at : TsVal
  updated_at : Option Int
deriving Repr, DecidableEq

/-- A row of the `plans` table. -/
structure Plan where
  plan_code : String
  duration_days : PyVal
  grace_days : PyVal
deriving Repr, DecidableEq

/-- A row of the `daily_question_usage` table; only its `day` column is ever
consulted. -/
structure UsageRow where
  day : Int
deriving Repr, DecidableEq

/-- The remote store. -/
structure DB where
  subs : List SubRow
  plans : List Plan
  usage : List UsageRow
deriving Repr, DecidableEq

/-- One remote operation issued against the store, as logged in the trace. -/
inductive Call where
  | selectSubs
  | selectPlan (code : String)
  | updateClearPending (id : String)
  | updateDeactivateByAccount (account_id : String)
  | updateDeactivateRow (id : String) (reason : String)
  | insertSub (payload : SubRow)
  | deleteUsage
  | rpc (name : String)
deriving Repr, DecidableEq

/-- Whether a logged call is a remote procedure call. -/
def Call.isRpc : Call → Bool
  | .rpc _ => true
  | _ => false

/-- Run state: the store contents plus the log of the remote calls issued so
far. -/
structure St where
  db : DB
  trace : List Call
deriving Repr, DecidableEq

/-- Fault assignment for one run: which remote calls raise. -/
structure Faults where
  selectSubs : Bool
  selectPlan : String → Bool
  clearPending : String → Bool
  deactivateOthers : String → Bool
  insertSub : String → Bool
  deactivateRow : String → Bool
  deleteUsage : Bool

/-- The run in which every remote call succeeds. -/
def noFaults : Faults where
  selectSubs := false
  selectPlan := fun _ => false
  clearPending := fun _ => false
  deactivateOthers := fun _ => false
  insertSub := fun _ => false
  deactivateRow := fun _ => false
  deleteUsage := false

/-- A write wrapped in `try/except Exception: pass`: the call is issued (and
logged); on a fault its effect is discarded and no exception propagates. -/
def attemptWrite (fault : Bool) (c : Call) (upd : DB → DB) (st : St) : St :=
  { db := if fault then st.db else upd st.db, trace := st.trace ++ [c] }

namespace RunOnce

/-- Effect on one stored row of the update clearing the pending fields
(run_once.py lines 156-161). -/
def clearPendingUpd (now : Int) (rid : String) (r : SubRow) : SubRow :=
  if r.id = rid then
    { r with pending_plan_code := none, pending_starts_at := TsVal.null,
             updated_at := some now }
  else r

/-- Effect on one stored row of the update in `_activate_new_subscription`
that marks the account's active rows replaced (run_once.py lines 97-102). -/
def replaceActiveUpd (now : Int) (account_id : String) (r : SubRow) : SubRow :=
  if r.account_id = account_id && r.is_active then
    { r with is_active := false, status := "replaced", updated_at := some now }
  else r

/-- Effect on one stored row of the update in `_deactivate_row`
(run_once.py lines 82-84). -/
def deactivateUpd (now : Int) (rid : String) (reason : String) (r : SubRow) : SubRow :=
  if r.id = rid then
    { r with is_active := false, status := reason, updated_at := some now }
  else r

/-- The function `_deactivate_row` (run_once.py lines 80-86): a best-effort
update of one row by id. -/
def deactivateRow (f : Faults) (now : Int) (row_id reason : String) (st : St) : St :=
  attemptWrite (f.deactivateRow row_id) (Call.updateDeactivateRow row_id reason)
    (fun db => { db with subs := db.subs.map (deactivateUpd now row_id reason) }) st

/-- Lookup in the `plans` table by code: `.eq("plan_code", c).limit(1)` and
then the first row or `None` (run_once.py lines 52-53). -/
def findPlan (plans : List Plan) (code : String) : Option Plan :=
  (plans.filter (fun p => p.plan_code == code)).head?

/-- The function `_get_plan` (run_once.py lines 48-53): strips the code,
returns `None` on an empty code without any remote call, and otherwise
selects from `plans` — an unwrapped read, so a fault here raises. -/
def getPlan (f : Faults) (plan_code : String) (st : St) : Except Unit (Option Plan × St) :=
  let c := plan_code.pyStrip
  if c = "" then .ok (none, st)
  else if f.selectPlan c then .error ()
  else .ok (findPlan st.db.plans c, { st with trace := st.trace ++ [Call.selectPlan c] })

/-- Pure shadow of `_get_plan` on a fixed plans table (what the lookup
returns when the read succeeds). -/
def getPlanPure (plans : List Plan) (plan_code : String) : Option Plan :=
  let c := plan_code.pyStrip
  if c = "" then none else findPlan plans c

/-- The calls issued by one successful `_get_plan`. -/
def planCalls (plan_code : String) : List Call :=
  if plan_code.pyStrip = "" then [] else [Call.selectPlan plan_code.pyStrip]

/-- The function `_build_expiry_from_plan` (run_once.py lines 56-64). -/
def buildExpiryFromPlan (f : Faults) (plan_code : String) (starts_at : Int) (st : St) :
    Except Unit (Int × St) :=
  match getPlan f plan_code st with
  | .error e => .error e
  | .ok (plan, st₁) =>
    let duration_days : Int :=
      match plan with
      | none => 30
      | some p => intOrDefault p.duration_days 30
    .ok (starts_at + duration_days * day, st₁)

/-- The duration actually used for a plan code on a given plans table. -/
def durationDaysOf (plans : List Plan) (plan_code : String) : Int :=
  match getPlanPure plans plan_code with
  | none => 30
  | some p => intOrDefault p.duration_days 30

/-- The function `_plan_grace_days` (run_once.py lines 67-74). -/
def planGraceDays (f : Faults) (plan_code : String) (st : St) : Except Unit (Int × St) :=
  match getPlan f plan_code st with
  | .error e => .error e
  | .ok (none, st₁) => .ok (0, st₁)
  | .ok (some p, st₁) => .ok (intOrDefault p.grace_days 0, st₁)

/-- The grace period actually used for a plan code on a given plans table. -/
def graceDaysOf (plans : List Plan) (plan_code : String) : Int :=
  match getPlanPure plans plan_code with
  | none => 0
  | some p => intOrDefault p.grace_days 0

/-- The insert payload built in `_activate_new_subscription` (run_once.py
lines 107-117).  The store assigns the primary key, so `id` is empty here. -/
def newSubPayload (now expires : Int) (account_id plan_code : String) : SubRow :=
  { id := ""
    account_id := account_id
    plan_code := some plan_code
    status := "active"
    started_at := TsVal.str (some now)
    expires_at := TsVal.str (some expires)
    is_active := true
    pending_plan_code := none
    pending_starts_at := TsVal.null
    updated_at := some now }

/-- The function `_activate_new_subscription` (run_once.py lines 89-122): a
best-effort update marking the account's active rows replaced, the expiry
computation (whose plan lookup is an unwrapped read that may raise), then a
best-effort insert of the new active row. -/
def activateNewSubscription (f : Faults) (now : Int) (account_id plan_code : String)
    (st : St) : Except Unit St :=
  let st₁ := attemptWrite (f.deactivateOthers account_id)
    (Call.updateDeactivateByAccount account_id)
    (fun db => { db with subs := db.subs.map (replaceActiveUpd now account_id) }) st
  match buildExpiryFromPlan f plan_code now st₁ with
  | .error e => .error e
  | .ok (expires, st₂) =>
    let payload := newSubPayload now expires account_id plan_code
    .ok (attemptWrite (f.insertSub account_id) (Call.insertSub payload)
      (fun db => { db with subs := db.subs ++ [payload] }) st₂)

/-- The decision taken by the row loop of `apply_scheduled_upgrades`
(run_once.py lines 146-153): a row is promoted when its stripped pending
plan code is non-empty, its pending start parses, and the start is not in
the future. -/
def dueForUpgrade (now : Int) (row : SubRow) : Bool :=
  match parseTs row.pending_starts_at with
  | none => false
  | some starts_dt =>
    ((row.pending_plan_code.getD "").pyStrip != "") && !(decide (now < starts_dt))

/-- Body of the row loop of `apply_scheduled_upgrades` (run_once.py lines
145-164); the returned boolean says whether the row was promoted, i.e.
whether `count += 1` ran. -/
def upgradeBody (f : Faults) (now : Int) (row : SubRow) (st : St) :
    Except Unit (Bool × St) :=
  let pending_plan := (row.pending_plan_code.getD "").pyStrip
  match parseTs row.pending_starts_at with
  | none => .ok (false, st)
  | some starts_dt =>
    if pending_plan = "" then .ok (false, st)
    else if now < starts_dt then .ok (false, st)
    else
      let st₁ := attemptWrite (f.clearPending row.id) (Call.updateClearPending row.id)
        (fun db => { db with subs := db.subs.map (clearPendingUpd now row.id) }) st
      match activateNewSubscription f now row.account_id pending_plan st₁ with
      | .error e => .error e
      | .ok st₂ => .ok (true, st₂)

/-- The source's `for row in rows: ... count += 1` pattern, threading the
state through the loop. -/
def countLoop (body : SubRow → St → Except Unit (Bool × St)) :
    List SubRow → Nat → St → Except Unit (Nat × St)
  | [], count, st => .ok (count, st)
  | r :: rs, count, st =>
    match body r st with
    | .error e => .error e
    | .ok (b, st') => countLoop body rs (if b then count + 1 else count) st'

/-- Filter of the select in `apply_scheduled_upgrades` (run_once.py lines
135-143): active rows whose pending plan code and pending start are not
null. -/
def upgradeScanPred (r : SubRow) : Bool :=
  r.is_active && r.pending_plan_code.isSome && !r.pending_starts_at.isNull

/-- The function `apply_scheduled_upgrades` (run_once.py lines 125-166); the
initial select is an unwrapped read, so a fault there raises. -/
def applyScheduledUpgrades (f : Faults) (now : Int) (limit : Nat) (st : St) :
    Except Unit (Nat × St) :=
  if f.selectSubs then .error ()
  else
    let rows := (st.db.subs.filter upgradeScanPred).take limit
    countLoop (upgradeBody f now) rows 0 { st with trace := st.trace ++ [Call.selectSubs] }

/-- The decision taken by the row loop of `deactivate_expired_subscriptions`
(run_once.py lines 186-195) on a given plans table: a row is deactivated
when its expiry parses and `now` strictly exceeds expiry plus grace. -/
def dueForExpiry (plans : List Plan) (now : Int) (row : SubRow) : Bool :=
  match parseTs row.expires_at with
  | none => false
  | some exp_dt =>
    decide (exp_dt + graceDaysOf plans ((row.plan_code.getD "").pyStrip) * day < now)

/-- Body of the row loop of `deactivate_expired_subscriptions` (run_once.py
lines 185-197). -/
def expireBody (f : Faults) (now : Int) (row : SubRow) (st : St) :
    Except Unit (Bool × St) :=
  match parseTs row.expires_at with
  | none => .ok (false, st)
  | some exp_dt =>
    let plan_code := (row.plan_code.getD "").pyStrip
    match planGraceDays f plan_code st with
    | .error e => .error e
    | .ok (grace_days, st₁) =>
      let grace_until := exp_dt + grace_days * day
      if grace_until < now then .ok (true, deactivateRow f now row.id "expired" st₁)
      else .ok (false, st₁)

/-- The function `deactivate_expired_subscriptions` (run_once.py lines
169-199). -/
def deactivateExpiredSubscriptions (f : Faults) (now : Int) (limit : Nat) (st : St) :
    Except Unit (Nat × St) :=
  if f.selectSubs then .error ()
  else
    let rows := (st.db.subs.filter (fun r => r.is_active)).take limit
    countLoop (expireBody f now) rows 0 { st with trace := st.trace ++ [Call.selectSubs] }

/-- The limited delete `.delete().lt("day", cutoff.isoformat()).limit(limit)`
(run_once.py lines 216-222): removes up to `limit` rows with `day < cutoff`
and reports the remaining rows together with the number removed. -/
def deleteOldUsage (cutoff : Int) : Nat → List UsageRow → List UsageRow × Nat
  | _, [] => ([], 0)
  | 0, rest => (rest, 0)
  | k + 1, u :: rest =>
    if u.day < cutoff then
      let (kept, n) := deleteOldUsage cutoff k rest
      (kept, n + 1)
    else
      let (kept, n) := deleteOldUsage cutoff (k + 1) rest
      (u :: kept, n)

/-- The function `cleanup_daily_question_usage` (run_once.py lines 205-227):
the whole delete sits inside `try/except`, so a fault yields `deleted = 0`
and no exception ever propagates. -/
def cleanupDailyQuestionUsage (f : Faults) (today keep_days : Int) (limit : Nat)
    (st : St) : Except Unit (Nat × St) :=
  let cutoff := today - keep_days
  if f.deleteUsage then .ok (0, st)
  else
    let (remaining, n) := deleteOldUsage cutoff limit st.db.usage
    .ok (n, { db := { st.db with usage := remaining },
              trace := st.trace ++ [Call.deleteUsage] })

/-- Default arguments taken at the call sites inside `main` (run_once.py
lines 125, 169, 205, 230-235). -/
def upgradesLimitDefault : Nat := 2000

/-- Default `limit` of `deactivate_expired_subscriptions`. -/
def expiredLimitDefault : Nat := 5000

/-- Default `keep_days` of `cleanup_daily_question_usage`. -/
def keepDaysDefault : Int := 45

/-- Default `limit` of `cleanup_daily_question_usage`. -/
def cleanupLimitDefault : Nat := 5000

/-- The function `main` (run_once.py lines 230-235): the three jobs in
order, then the printed summary line. -/
def main (f : Faults) (now today : Int) (st : St) : Except Unit (String × St) :=
  match applyScheduledUpgrades f now upgradesLimitDefault st with
  | .error e => .error e
  | .ok (upgraded, st₁) =>
    match deactivateExpiredSubscriptions f now expiredLimitDefault st₁ with
    | .error e => .error e
    | .ok (expired, st₂) =>
      match cleanupDailyQuestionUsage f today keepDaysDefault cleanupLimitDefault st₂ with
      | .error e => .error e
      | .ok (cleaned, st₃) =>
        .ok ("OK: scheduled_upgrades_applied=" ++ toString upgraded
          ++ " expired_deactivated=" ++ toString expired
          ++ " daily_usage_cleaned=" ++ toString cleaned, st₃)

end RunOnce

namespace RunJobs

/-- The function `_get_plan` in run_jobs.py (lines 45-49): unlike the
run_once.py version it does not strip the code; an empty code short-circuits
to `None` without a remote call, otherwise the `plans` select is an
unwrapped read. -/
def getPlan (f : Faults) (plan_code : String) (st : St) : Except Unit (Option Plan × St) :=
  if plan_code = "" then .ok (none, st)
  else if f.selectPlan plan_code then .error ()
  else .ok (RunOnce.findPlan st.db.plans plan_code,
            { st with trace := st.trace ++ [Call.selectPlan plan_code] })

/-- The function `_build_expiry_from_plan` in run_jobs.py (lines 52-60). -/
def buildExpiryFromPlan (f : Faults) (plan_code : String) (starts_at : Int) (st : St) :
    Except Unit (Int × St) :=
  match getPlan f plan_code st with
  | .error e => .error e
  | .ok (plan, st₁) =>
    let duration_days : Int :=
      match plan with
      | none => 30
      | some p => intOrDefault p.duration_days 30
    .ok (starts_at + duration_days * day, st₁)

/-- The function `_activate_new_subscription` in run_jobs.py (lines 72-102):
the same best-effort deactivate / expiry computation / best-effort insert
sequence as in run_once.py.  Its body issues no remote procedure call; its
docstring only notes that the credit reset is handled by the API and that an
RPC could be added later. -/
def activateNewSubscription (f : Faults) (now : Int) (account_id plan_code : String)
    (st : St) : Except Unit St :=
  let st₁ := attemptWrite (f.deactivateOthers account_id)
    (Call.updateDeactivateByAccount account_id)
    (fun db => { db with subs := db.subs.map (RunOnce.replaceActiveUpd now account_id) }) st
  match buildExpiryFromPlan f plan_code now st₁ with
  | .error e => .error e
  | .ok (expires, st₂) =>
    let payload := RunOnce.newSubPayload now expires account_id plan_code
    .ok (attemptWrite (f.insertSub account_id) (Call.insertSub payload)
      (fun db => { db with subs := db.subs ++ [payload] }) st₂)

end RunJobs

/-- Value of `os.getenv(name, "").strip()` for an environment variable that
may be unset (run_once.py lines 36-37, run_jobs.py lines 33-34). -/
def envStrip (v : Option String) : String := (v.getD "").pyStrip

/-- The client handle produced by `create_client` (an external library call,
abstracted as the pair of credentials it receives). -/
structure Client where
  url : String
  key : String
deriving Repr, DecidableEq

/-- Module-level startup of run_once.py (lines 36-42) and run_jobs.py (lines
33-39): read and strip both environment variables, raise `RuntimeError` when
either is falsy, otherwise create the client.  This code runs when the
module loads, before any job function can be called. -/
def moduleStartup (env_url env_key : Option String) : Except String Client :=
  let su := envStrip env_url
  let sk := envStrip env_key
  if su = "" || sk = "" then
    Except.error "Missing SUPABASE_URL / SUPABASE_SERVICE_ROLE_KEY"
  else Except.ok { url := su, key := sk }

/-- Top-level names bound by module `app.scheduler.run_once` when it loads
successfully: the names it pulls in, its module-level assignments, and its
function definitions (the whole of run_once.py). -/
def runOnceModuleNames : List String :=
  ["annotations", "os", "datetime", "timezone", "timedelta", "date",
   "Any", "Dict", "Optional", "create_client",
   "_now_utc", "_today_utc", "_parse_iso", "_iso",
   "SUPABASE_URL", "SUPABASE_SERVICE_ROLE_KEY", "sb",
   "_get_plan", "_build_expiry_from_plan", "_plan_grace_days",
   "_deactivate_row", "_activate_new_subscription",
   "apply_scheduled_upgrades", "deactivate_expired_subscriptions",
   "cleanup_daily_question_usage", "main"]

/-- The one name that `__main__.py` line 5 pulls from `.run_once`. -/
def entryImportedName : String := "run_once"

/-- Modelled module load of `python -m app.scheduler`: the from-style
instruction at line 5 of `__main__.py` succeeds only if module `.run_once`
binds the requested name; otherwise Python raises `ImportError` before the
`__name__` guard, so before any job can run. -/
def entryPointLoad : Except String Unit :=
  if runOnceModuleNames.contains entryImportedName then Except.ok ()
  else Except.error "ImportError: cannot import name run_once from app.scheduler.run_once"

namespace RunOnce

/-- When the plans read does not fault, `_get_plan` returns the pure lookup,
leaves the store unchanged and logs `planCalls`. -/
theorem getPlan_readOk (f : Faults) (code : String) (st : St)
    (h : f.selectPlan code.pyStrip = false) :
    getPlan f code st =
      .ok (getPlanPure st.db.plans code, ⟨st.db, st.trace ++ planCalls code⟩) := by
  unfold getPlan getPlanPure planCalls
  by_cases hc : code.pyStrip = ""
  · simp [hc]
  · simp [hc, h]

/-- When the plans read does not fault, `_build_expiry_from_plan` adds the
effective duration and leaves the store unchanged. -/
theorem buildExpiryFromPlan_readOk (f : Faults) (code : String) (starts : Int) (st : St)
    (h : f.selectPlan code.pyStrip = false) :
    buildExpiryFromPlan f code starts st =
      .ok (starts + durationDaysOf st.db.plans code * day,
           ⟨st.db, st.trace ++ planCalls code⟩) := by
  unfold buildExpiryFromPlan durationDaysOf
  rw [getPlan_readOk f code st h]

/-- When the plans read does not fault, `_plan_grace_days` returns the
effective grace period and leaves the store unchanged. -/
theorem planGraceDays_readOk (f : Faults) (code : String) (st : St)
    (h : f.selectPlan code.pyStrip = false) :
    planGraceDays f code st =
      .ok (graceDaysOf st.db.plans code, ⟨st.db, st.trace ++ planCalls code⟩) := by
  unfold planGraceDays graceDaysOf
  rw [getPlan_readOk f code st h]
  cases hp : getPlanPure st.db.plans code <;> simp [hp]

/-- With no faults at all, `_activate_new_subscription` marks the account's
active rows replaced, appends exactly one new row — the payload — and logs
the deactivate, the plan read and the insert in that order. -/
theorem activateNewSubscription_noFaults (now : Int) (a code : String) (st : St) :
    activateNewSubscription noFaults now a code st =
      .ok ⟨⟨st.db.subs.map (replaceActiveUpd now a) ++
              [newSubPayload now (now + durationDaysOf st.db.plans code * day) a code],
            st.db.plans, st.db.usage⟩,
           st.trace ++ Call.updateDeactivateByAccount a ::
             (planCalls code ++
              [Call.insertSub
                (newSubPayload now (now + durationDaysOf st.db.plans code * day) a code)])⟩ := by
  unfold activateNewSubscription
  dsimp only
  rw [buildExpiryFromPlan_readOk noFaults code now _ rfl]
  simp [noFaults, attemptWrite, List.append_assoc]

/-- When the plans read does not fault, `_activate_new_subscription`
succeeds and never touches the plans table. -/
theorem activateNewSubscription_ok (f : Faults) (now : Int) (a code : String) (st : St)
    (hf : ∀ c, f.selectPlan c = false) :
    ∃ st', activateNewSubscription f now a code st = .ok st' ∧
      st'.db.plans = st.db.plans := by
  unfold activateNewSubscription
  dsimp only
  rw [buildExpiryFromPlan_readOk f code now _ (hf _)]
  refine ⟨_, rfl, ?_⟩
  unfold attemptWrite
  cases f.insertSub a <;> cases f.deactivateOthers a <;> simp

/-- When the plans read does not fault, the upgrade loop body succeeds, its
boolean is exactly `dueForUpgrade`, and the plans table is untouched. -/
theorem upgradeBody_ok (f : Faults) (now : Int) (r : SubRow) (st : St)
    (hf : ∀ c, f.selectPlan c = false) :
    ∃ st', upgradeBody f now r st = .ok (dueForUpgrade now r, st') ∧
      st'.db.plans = st.db.plans := by
  unfold upgradeBody dueForUpgrade
  cases hp : parseTs r.pending_starts_at with
  | none => exact ⟨st, rfl, rfl⟩
  | some t =>
    by_cases hpp : (r.pending_plan_code.getD "").pyStrip = ""
    · refine ⟨st, ?_, rfl⟩
      simp [hpp]
    · by_cases hlt : now < t
      · refine ⟨st, ?_, rfl⟩
        simp [hpp, hlt]
      · obtain ⟨st', hact, hplans⟩ := activateNewSubscription_ok f now r.account_id
          ((r.pending_plan_code.getD "").pyStrip)
          (attemptWrite (f.clearPending r.id) (Call.updateClearPending r.id)
            (fun db => { db with subs := db.subs.map (clearPendingUpd now r.id) }) st) hf
        refine ⟨st', ?_, ?_⟩
        · simp [hpp, hlt, hact]
        · rw [hplans]
          unfold attemptWrite
          cases f.clearPending r.id <;> simp

/-- A `false` outcome of the expiry loop body leaves the store unchanged:
the row was left active. -/
theorem expireBody_false_db (f : Faults) (now : Int) (r : SubRow) (st st' : St)
    (h : expireBody f now r st = .ok (false, st')) : st'.db = st.db := by
  unfold expireBody at h
  cases hp : parseTs r.expires_at with
  | none =>
    simp [hp] at h
    rw [← h]
  | some t =>
    simp only [hp] at h
    cases hg : planGraceDays f ((r.plan_code.getD "").pyStrip) st with
    | error e => simp [hg] at h
    | ok out =>
      obtain ⟨g, st₁⟩ := out
      simp only [hg] at h
      by_cases hlt : t + g * day < now
      · simp [hlt] at h
      · simp [hlt] at h
        unfold planGraceDays at hg
        cases hq : getPlan f ((r.plan_code.getD "").pyStrip) st with
        | error e => simp [hq] at hg
        | ok out₂ =>
          obtain ⟨p?, st₂⟩ := out₂
          have hdb : st₂.db = st.db := by
            unfold getPlan at hq
            by_cases hc : ((r.plan_code.getD "").pyStrip).pyStrip = ""
            · simp [hc] at hq
              rw [← hq.2]
            · by_cases hfp : f.selectPlan (((r.plan_code.getD "").pyStrip).pyStrip) = true
              · simp [hc, hfp] at hq
              · simp [hc, hfp] at hq
                rw [← hq.2]
          cases p? with
          | none =>
            simp [hq] at hg
            rw [← h, ← hg.2, hdb]
          | some p =>
            simp [hq] at hg
            rw [← h, ← hg.2, hdb]

/-- When the plans read does not fault, the expiry loop body succeeds, its
boolean is exactly `dueForExpiry`, and the plans table is untouched. -/
theorem expireBody_ok (f : Faults) (now : Int) (r : SubRow) (st : St)
    (hf : ∀ c, f.selectPlan c = false) :
    ∃ st', expireBody f now r st = .ok (dueForExpiry st.db.plans now r, st') ∧
      st'.db.plans = st.db.plans := by
  unfold expireBody dueForExpiry
  cases hp : parseTs r.expires_at with
  | none => exact ⟨st, rfl, rfl⟩
  | some t =>
    dsimp only
    rw [planGraceDays_readOk f ((r.plan_code.getD "").pyStrip) st (hf _)]
    dsimp only
    by_cases hlt : t + graceDaysOf st.db.plans ((r.plan_code.getD "").pyStrip) * day < now
    · refine ⟨deactivateRow f now r.id "expired"
        ⟨st.db, st.trace ++ planCalls ((r.plan_code.getD "").pyStrip)⟩, ?_, ?_⟩
      · simp [hlt]
      · unfold deactivateRow attemptWrite
        cases f.deactivateRow r.id <;> simp
    · refine ⟨⟨st.db, st.trace ++ planCalls ((r.plan_code.getD "").pyStrip)⟩, ?_, rfl⟩
      simp [hlt]

/-- Generic loop lemma: if the body always succeeds, decides by a fixed
predicate, and preserves the plans table, then the loop succeeds and its
count is the number of rows satisfying the predicate. -/
theorem countLoop_spec (body : SubRow → St → Except Unit (Bool × St))
    (P : List Plan) (decision : SubRow → Bool)
    (hbody : ∀ r st, st.db.plans = P →
      ∃ st', body r st = .ok (decision r, st') ∧ st'.db.plans = P) :
    ∀ (rows : List SubRow) (n : Nat) (st : St), st.db.plans = P →
      ∃ fin, countLoop body rows n st = .ok (n + rows.countP decision, fin) ∧
        fin.db.plans = P := by
  intro rows
  induction rows with
  | nil => intro n st hst; exact ⟨st, by simp [countLoop], hst⟩
  | cons r rs ih =>
    intro n st hst
    obtain ⟨st', hb, hp'⟩ := hbody r st hst
    obtain ⟨fin, hloop, hpf⟩ := ih (if decision r then n + 1 else n) st' hp'
    refine ⟨fin, ?_, hpf⟩
    unfold countLoop
    rw [hb]
    dsimp only
    rw [hloop, List.countP_cons]
    cases hd : decision r <;> simp [hd]
    all_goals omega

/-- The upgrade decision holds exactly when the stripped pending plan code
is non-empty and the pending start parses to a time not after `now`. -/
theorem dueForUpgrade_iff (now : Int) (row : SubRow) :
    dueForUpgrade now row = true ↔
      ((row.pending_plan_code.getD "").pyStrip ≠ "" ∧
       ∃ t, parseTs row.pending_starts_at = some t ∧ t ≤ now) := by
  unfold dueForUpgrade
  cases hp : parseTs row.pending_starts_at <;> simp [hp, not_lt]

/-- The expiry decision holds exactly when the expiry parses and `now`
strictly exceeds expiry plus the plan's grace period. -/
theorem dueForExpiry_iff (plans : List Plan) (now : Int) (row : SubRow) :
    dueForExpiry plans now row = true ↔
      (∃ e, parseTs row.expires_at = some e ∧
        e + graceDaysOf plans ((row.plan_code.getD "").pyStrip) * day < now) := by
  unfold dueForExpiry
  cases hp : parseTs row.expires_at <;> simp [hp]

/-- When the reads do not fault, `apply_scheduled_upgrades` succeeds and its
count is the number of scanned rows on which the upgrade decision holds. -/
theorem applyScheduledUpgrades_ok (f : Faults) (now : Int) (limit : Nat) (st : St)
    (hsel : f.selectSubs = false) (hf : ∀ c, f.selectPlan c = false) :
    ∃ fin, applyScheduledUpgrades f now limit st =
      .ok (((st.db.subs.filter upgradeScanPred).take limit).countP (dueForUpgrade now), fin) ∧
      fin.db.plans = st.db.plans := by
  obtain ⟨fin, hl, hp⟩ := countLoop_spec (upgradeBody f now) st.db.plans (dueForUpgrade now)
    (fun r st₂ h => by
      obtain ⟨st', hb, hq⟩ := upgradeBody_ok f now r st₂ hf
      exact ⟨st', hb, by rw [hq, h]⟩)
    ((st.db.subs.filter upgradeScanPred).take limit) 0 ⟨st.db, st.trace ++ [Call.selectSubs]⟩ rfl
  refine ⟨fin, ?_, hp⟩
  unfold applyScheduledUpgrades
  rw [hsel]
  simpa using hl

/-- When the reads do not fault, `deactivate_expired_subscriptions` succeeds
and its count is the number of scanned active rows on which the expiry
decision holds. -/
theorem deactivateExpiredSubscriptions_ok (f : Faults) (now : Int) (limit : Nat) (st : St)
    (hsel : f.selectSubs = false) (hf : ∀ c, f.selectPlan c = false) :
    ∃ fin, deactivateExpiredSubscriptions f now limit st =
      .ok (((st.db.subs.filter (fun r => r.is_active)).take limit).countP
             (dueForExpiry st.db.plans now), fin) ∧
      fin.db.plans = st.db.plans := by
  obtain ⟨fin, hl, hp⟩ := countLoop_spec (expireBody f now) st.db.plans
    (dueForExpiry st.db.plans now)
    (fun r st₂ h => by
      obtain ⟨st', hb, hq⟩ := expireBody_ok f now r st₂ hf
      rw [h] at hb
      exact ⟨st', hb, by rw [hq, h]⟩)
    ((st.db.subs.filter (fun r => r.is_active)).take limit) 0
    ⟨st.db, st.trace ++ [Call.selectSubs]⟩ rfl
  refine ⟨fin, ?_, hp⟩
  unfold deactivateExpiredSubscriptions
  rw [hsel]
  simpa using hl

/-- The limited delete reports `min` of the budget and the number of
matching rows. -/
theorem deleteOldUsage_count (cutoff : Int) :
    ∀ (k : Nat) (xs : List UsageRow),
      (deleteOldUsage cutoff k xs).2 =
        min k ((xs.filter (fun u => decide (u.day < cutoff))).length) := by
  intro k xs
  induction xs generalizing k with
  | nil => simp [deleteOldUsage]
  | cons u rest ih =>
    cases k with
    | zero => simp [deleteOldUsage]
    | succ k =>
      by_cases hu : u.day < cutoff
      · simp [deleteOldUsage, hu, List.filter_cons, ih k, Nat.succ_min_succ]
      · simp [deleteOldUsage, hu, List.filter_cons, ih (k + 1)]

/-- The limited delete never touches a row at or past the cutoff. -/
theorem deleteOldUsage_keeps_new (cutoff : Int) :
    ∀ (k : Nat) (xs : List UsageRow),
      (deleteOldUsage cutoff k xs).1.filter (fun u => !decide (u.day < cutoff)) =
        xs.filter (fun u => !decide (u.day < cutoff)) := by
  intro k xs
  induction xs generalizing k with
  | nil => simp [deleteOldUsage]
  | cons u rest ih =>
    cases k with
    | zero => simp [deleteOldUsage]
    | succ k =>
      by_cases hu : u.day < cutoff
      · simp [deleteOldUsage, hu, List.filter_cons, ih k]
      · simp [deleteOldUsage, hu, List.filter_cons, ih (k + 1)]

/-- Rows deleted plus rows remaining account for the whole table. -/
theorem deleteOldUsage_length (cutoff : Int) :
    ∀ (k : Nat) (xs : List UsageRow),
      (deleteOldUsage cutoff k xs).2 + (deleteOldUsage cutoff k xs).1.length = xs.length := by
  intro k xs
  induction xs generalizing k with
  | nil => simp [deleteOldUsage]
  | cons u rest ih =>
    cases k with
    | zero => simp [deleteOldUsage]
    | succ k =>
      by_cases hu : u.day < cutoff
      · have := ih k
        simp [deleteOldUsage, hu]
        omega
      · have := ih (k + 1)
        simp [deleteOldUsage, hu]
        omega

/-- Every remaining row was in the table. -/
theorem deleteOldUsage_subset (cutoff : Int) :
    ∀ (k : Nat) (xs : List UsageRow) (u : UsageRow),
      u ∈ (deleteOldUsage cutoff k xs).1 → u ∈ xs := by
  intro k xs
  induction xs generalizing k with
  | nil => simp [deleteOldUsage]
  | cons v rest ih =>
    cases k with
    | zero => simp [deleteOldUsage]
    | succ k =>
      intro u hu
      by_cases hv : v.day < cutoff
      · simp only [deleteOldUsage, hv, if_pos] at hu
        exact List.mem_cons_of_mem v (ih k u hu)
      · simp only [deleteOldUsage, hv, if_neg, not_false_iff] at hu
        rcases List.mem_cons.mp hu with h | h
        · exact h ▸ List.mem_cons_self v rest
        · exact List.mem_cons_of_mem v (ih (k + 1) u h)

/-- When the budget covers all matching rows, the delete removes exactly the
rows strictly older than the cutoff. -/
theorem deleteOldUsage_exact (cutoff : Int) :
    ∀ (k : Nat) (xs : List UsageRow),
      (xs.filter (fun u => decide (u.day < cutoff))).length ≤ k →
      (deleteOldUsage cutoff k xs).1 = xs.filter (fun u => !decide (u.day < cutoff)) := by
  intro k xs
  induction xs generalizing k with
  | nil => simp [deleteOldUsage]
  | cons u rest ih =>
    cases k with
    | zero =>
      intro hlen
      simp only [List.filter_cons] at hlen
      by_cases hu : u.day < cutoff
      · simp [hu] at hlen
      · simp only [hu, decide_eq_true_eq, if_neg, not_false_iff] at hlen
        have hempty : rest.filter (fun v => decide (v.day < cutoff)) = [] :=
          List.length_eq_zero.mp (Nat.le_zero.mp hlen)
        have hall : ∀ v ∈ rest, ¬(v.day < cutoff) := by
          intro v hv
          have := List.filter_eq_nil_iff.mp hempty v hv
          simpa using this
        have hself : rest.filter (fun v => !decide (v.day < cutoff)) = rest := by
          apply List.filter_eq_self.mpr
          intro v hv
          simpa using hall v hv
        simp [deleteOldUsage, List.filter_cons, hu, hself]
    | succ k =>
      intro hlen
      by_cases hu : u.day < cutoff
      · simp only [List.filter_cons, hu, decide_eq_true_eq, if_pos] at hlen
        simp [deleteOldUsage, hu, List.filter_cons, ih k (Nat.succ_le_succ_iff.mp hlen)]
      · simp only [List.filter_cons, hu, decide_eq_true_eq, if_neg, not_false_iff] at hlen
        simp [deleteOldUsage, hu, List.filter_cons, ih (k + 1) hlen]

end RunOnce

/-- No remote procedure call occurs in a trace. -/
def noRpc (tr : List Call) : Prop := ∀ c ∈ tr, c.isRpc = false

/-- The empty trace is rpc-free. -/
theorem noRpc_nil : noRpc [] := by
  intro c hc
  simp at hc

/-- Concatenation preserves rpc-freeness. -/
theorem noRpc_append {tr ts : List Call} (h1 : noRpc tr) (h2 : noRpc ts) :
    noRpc (tr ++ ts) := by
  intro c hc
  rcases List.mem_append.mp hc with h | h
  · exact h1 c h
  · exact h2 c h

/-- A best-effort write only appends its own (non-rpc) call. -/
theorem noRpc_attemptWrite {st : St} (h : noRpc st.trace) {c : Call}
    (hc : c.isRpc = false) (fault : Bool) (upd : DB → DB) :
    noRpc (attemptWrite fault c upd st).trace := by
  unfold attemptWrite
  refine noRpc_append h ?_
  intro d hd
  simp at hd
  rw [hd]
  exact hc

namespace RunOnce

/-- `_get_plan` logs at most a plans select. -/
theorem noRpc_getPlan {f : Faults} {code : String} {st : St} {p : Option Plan} {st' : St}
    (hq : getPlan f code st = .ok (p, st')) (h : noRpc st.trace) : noRpc st'.trace := by
  unfold getPlan at hq
  by_cases hc : code.pyStrip = ""
  · simp [hc] at hq
    rw [← hq.2]
    exact h
  · by_cases hfp : f.selectPlan code.pyStrip = true
    · simp [hc, hfp] at hq
    · simp [hc, hfp] at hq
      rw [← hq.2]
      refine noRpc_append h ?_
      intro d hd
      simp at hd
      rw [hd]
      rfl

/-- `_build_expiry_from_plan` logs at most a plans select. -/
theorem noRpc_buildExpiry {f : Faults} {code : String} {starts : Int} {st : St}
    {e : Int} {st' : St} (hq : buildExpiryFromPlan f code starts st = .ok (e, st'))
    (h : noRpc st.trace) : noRpc st'.trace := by
  unfold buildExpiryFromPlan at hq
  cases hg : getPlan f code st with
  | error err => simp [hg] at hq
  | ok out =>
    obtain ⟨p, st₁⟩ := out
    simp [hg] at hq
    rw [← hq.2]
    exact noRpc_getPlan hg h

/-- `_plan_grace_days` logs at most a plans select. -/
theorem noRpc_planGraceDays {f : Faults} {code : String} {st : St}
    {g : Int} {st' : St} (hq : planGraceDays f code st = .ok (g, st'))
    (h : noRpc st.trace) : noRpc st'.trace := by
  unfold planGraceDays at hq
  cases hg : getPlan f code st with
  | error err => simp [hg] at hq
  | ok out =>
    obtain ⟨p, st₁⟩ := out
    cases p with
    | none =>
      simp [hg] at hq
      rw [← hq.2]
      exact noRpc_getPlan hg h
    | some pl =>
      simp [hg] at hq
      rw [← hq.2]
      exact noRpc_getPlan hg h

/-- `_activate_new_subscription` logs only updates, a select and an insert. -/
theorem noRpc_activate {f : Faults} {now : Int} {a code : String} {st st' : St}
    (hq : activateNewSubscription f now a code st = .ok st') (h : noRpc st.trace) :
    noRpc st'.trace := by
  unfold activateNewSubscription at hq
  dsimp only at hq
  have h1 : noRpc (attemptWrite (f.deactivateOthers a) (Call.updateDeactivateByAccount a)
      (fun db => { db with subs := db.subs.map (replaceActiveUpd now a) }) st).trace :=
    noRpc_attemptWrite h (by rfl) _ _
  cases hb : buildExpiryFromPlan f code now
      (attemptWrite (f.deactivateOthers a) (Call.updateDeactivateByAccount a)
        (fun db => { db with subs := db.subs.map (replaceActiveUpd now a) }) st) with
  | error err => simp [hb] at hq
  | ok out =>
    obtain ⟨e, st₂⟩ := out
    simp [hb] at hq
    rw [← hq]
    exact noRpc_attemptWrite (noRpc_buildExpiry hb h1) (by rfl) _ _

/-- The upgrade loop body issues no rpc. -/
theorem noRpc_upgradeBody {f : Faults} {now : Int} {r : SubRow} {st : St}
    {b : Bool} {st' : St} (hq : upgradeBody f now r st = .ok (b, st')) (h : noRpc st.trace) :
    noRpc st'.trace := by
  unfold upgradeBody at hq
  cases hp : parseTs r.pending_starts_at with
  | none =>
    simp [hp] at hq
    rw [← hq.2]
    exact h
  | some t =>
    simp only [hp] at hq
    by_cases hpp : (r.pending_plan_code.getD "").pyStrip = ""
    · simp [hpp] at hq
      rw [← hq.2]
      exact h
    · by_cases hlt : now < t
      · simp [hpp, hlt] at hq
        rw [← hq.2]
        exact h
      · simp only [hpp, hlt, if_neg, not_false_iff, if_false] at hq
        have h1 : noRpc (attemptWrite (f.clearPending r.id) (Call.updateClearPending r.id)
            (fun db => { db with subs := db.subs.map (clearPendingUpd now r.id) }) st).trace :=
          noRpc_attemptWrite h (by rfl) _ _
        cases ha : activateNewSubscription f now r.account_id
            ((r.pending_plan_code.getD "").pyStrip)
            (attemptWrite (f.clearPending r.id) (Call.updateClearPending r.id)
              (fun db => { db with subs := db.subs.map (clearPendingUpd now r.id) }) st) with
        | error err => simp [ha] at hq
        | ok st₂ =>
          simp [ha] at hq
          rw [← hq.2]
          exact noRpc_activate ha h1

/-- The expiry loop body issues no rpc. -/
theorem noRpc_expireBody {f : Faults} {now : Int} {r : SubRow} {st : St}
    {b : Bool} {st' : St} (hq : expireBody f now r st = .ok (b, st')) (h : noRpc st.trace) :
    noRpc st'.trace := by
  unfold expireBody at hq
  cases hp : parseTs r.expires_at with
  | none =>
    simp [hp] at hq
    rw [← hq.2]
    exact h
  | some t =>
    simp only [hp] at hq
    cases hg : planGraceDays f ((r.plan_code.getD "").pyStrip) st with
    | error err => simp [hg] at hq
    | ok out =>
      obtain ⟨g, st₁⟩ := out
      simp only [hg] at hq
      have h1 : noRpc st₁.trace := noRpc_planGraceDays hg h
      by_cases hlt : t + g * day < now
      · simp [hlt] at hq
        rw [← hq.2]
        unfold deactivateRow
        exact noRpc_attemptWrite h1 (by rfl) _ _
      · simp [hlt] at hq
        rw [← hq.2]
        exact h1

/-- The row loop issues no rpc. -/
theorem noRpc_countLoop (body : SubRow → St → Except Unit (Bool × St))
    (hbody : ∀ r st b st', body r st = .ok (b, st') → noRpc st.trace → noRpc st'.trace) :
    ∀ (rows : List SubRow) (n : Nat) (st : St) (m : Nat) (fin : St),
      countLoop body rows n st = .ok (m, fin) → noRpc st.trace → noRpc fin.trace := by
  intro rows
  induction rows with
  | nil =>
    intro n st m fin hq h
    simp [countLoop] at hq
    rw [← hq.2]
    exact h
  | cons r rs ih =>
    intro n st m fin hq h
    unfold countLoop at hq
    cases hb : body r st with
    | error err => simp [hb] at hq
    | ok out =>
      obtain ⟨b, st'⟩ := out
      simp [hb] at hq
      exact ih _ st' m fin hq (hbody r st b st' hb h)

/-- `apply_scheduled_upgrades` issues no rpc. -/
theorem noRpc_applyScheduledUpgrades {f : Faults} {now : Int} {limit : Nat} {st : St}
    {n : Nat} {fin : St} (hq : applyScheduledUpgrades f now limit st = .ok (n, fin))
    (h : noRpc st.trace) : noRpc fin.trace := by
  unfold applyScheduledUpgrades at hq
  by_cases hsel : f.selectSubs = true
  · simp [hsel] at hq
  · simp only [hsel, if_neg, not_false_iff, if_false] at hq
    refine noRpc_countLoop _ (fun r st₂ b st₂' hb hh => noRpc_upgradeBody hb hh) _ _ _ _ _ hq ?_
    refine noRpc_append h ?_
    intro d hd
    simp at hd
    rw [hd]
    rfl

/-- `deactivate_expired_subscriptions` issues no rpc. -/
theorem noRpc_deactivateExpired {f : Faults} {now : Int} {limit : Nat} {st : St}
    {n : Nat} {fin : St} (hq : deactivateExpiredSubscriptions f now limit st = .ok (n, fin))
    (h : noRpc st.trace) : noRpc fin.trace := by
  unfold deactivateExpiredSubscriptions at hq
  by_cases hsel : f.selectSubs = true
  · simp [hsel] at hq
  · simp only [hsel, if_neg, not_false_iff, if_false] at hq
    refine noRpc_countLoop _ (fun r st₂ b st₂' hb hh => noRpc_expireBody hb hh) _ _ _ _ _ hq ?_
    refine noRpc_append h ?_
    intro d hd
    simp at hd
    rw [hd]
    rfl

end RunOnce

namespace RunJobs

/-- The run_jobs `_get_plan` logs at most a plans select. -/
theorem noRpcJobs_getPlan {f : Faults} {code : String} {st : St} {p : Option Plan} {st' : St}
    (hq : getPlan f code st = .ok (p, st')) (h : noRpc st.trace) : noRpc st'.trace := by
  unfold getPlan at hq
  by_cases hc : code = ""
  · simp [hc] at hq
    rw [← hq.2]
    exact h
  · by_cases hfp : f.selectPlan code = true
    · simp [hc, hfp] at hq
    · simp [hc, hfp] at hq
      rw [← hq.2]
      refine noRpc_append h ?_
      intro d hd
      simp at hd
      rw [hd]
      rfl

/-- The run_jobs `_build_expiry_from_plan` logs at most a plans select. -/
theorem noRpcJobs_buildExpiry {f : Faults} {code : String} {starts : Int} {st : St}
    {e : Int} {st' : St} (hq : buildExpiryFromPlan f code starts st = .ok (e, st'))
    (h : noRpc st.trace) : noRpc st'.trace := by
  unfold buildExpiryFromPlan at hq
  cases hg : getPlan f code st with
  | error err => simp [hg] at hq
  | ok out =>
    obtain ⟨p, st₁⟩ := out
    simp [hg] at hq
    rw [← hq.2]
    exact noRpcJobs_getPlan hg h

/-- The run_jobs `_activate_new_subscription` issues no rpc. -/
theorem noRpcJobs_activate {f : Faults} {now : Int} {a code : String} {st st' : St}
    (hq : activateNewSubscription f now a code st = .ok st') (h : noRpc st.trace) :
    noRpc st'.trace := by
  unfold activateNewSubscription at hq
  dsimp only at hq
  have h1 : noRpc (attemptWrite (f.deactivateOthers a) (Call.updateDeactivateByAccount a)
      (fun db => { db with subs := db.subs.map (RunOnce.replaceActiveUpd now a) }) st).trace :=
    noRpc_attemptWrite h (by rfl) _ _
  cases hb : buildExpiryFromPlan f code now
      (attemptWrite (f.deactivateOthers a) (Call.updateDeactivateByAccount a)
        (fun db => { db with subs := db.subs.map (RunOnce.replaceActiveUpd now a) }) st) with
  | error err => simp [hb] at hq
  | ok out =>
    obtain ⟨e, st₂⟩ := out
    simp [hb] at hq
    rw [← hq]
    exact noRpc_attemptWrite (noRpcJobs_buildExpiry hb h1) (by rfl) _ _

end RunJobs

/-- A sample plan used by the witnesses. -/
def wPlan : Plan :=
  { plan_code := "pro", duration_days := PyVal.vint 60, grace_days := PyVal.vint 3 }

/-- A sample active row with a due pending change, used by the witnesses. -/
def wRowDue : SubRow :=
  { id := "r1", account_id := "a1", plan_code := some "basic", status := "active",
    is_active := true, started_at := TsVal.str (some 0),
    expires_at := TsVal.str (some 100),
    pending_plan_code := some "pro", pending_starts_at := TsVal.str (some 50),
    updated_at := none }

/-- A sample row whose timestamps do not parse, used by the witnesses. -/
def wRowBadTs : SubRow :=
  { wRowDue with pending_starts_at := TsVal.other, expires_at := TsVal.str none }

/-- A sample store used by the witnesses. -/
def wDb : DB := { subs := [wRowDue], plans := [wPlan], usage := [⟨1⟩, ⟨100⟩] }

/-- A sample run state used by the witnesses. -/
def wSt : St := { db := wDb, trace := [] }

/-- C1: a row scanned by `apply_scheduled_upgrades` is promoted — the loop
body returns `true`, which is exactly when `count += 1` runs and the new
subscription is activated — if and only if its stripped pending plan code is
non-empty and its pending start parses to a timestamp less than or equal to
`now`; in particular a start equal to `now` is promoted and a strictly
future one is not.  Moreover the job's count is the number of scanned rows
on which that decision holds. -/
theorem upgrade_promotes_iff_due (now : Int) (row : SubRow) (st : St) (db : DB)
    (tr : List Call) (limit : Nat) :
    ((∃ st', RunOnce.upgradeBody noFaults now row st = .ok (true, st')) ↔
      ((row.pending_plan_code.getD "").pyStrip ≠ "" ∧
       ∃ t, parseTs row.pending_starts_at = some t ∧ t ≤ now)) ∧
    (∃ fin, RunOnce.applyScheduledUpgrades noFaults now limit ⟨db, tr⟩ =
      .ok (((db.subs.filter RunOnce.upgradeScanPred).take limit).countP
             (RunOnce.dueForUpgrade now), fin)) := by
  constructor
  · rw [← RunOnce.dueForUpgrade_iff]
    constructor
    · rintro ⟨st', hst⟩
      obtain ⟨st'', hb, _⟩ := RunOnce.upgradeBody_ok noFaults now row st (fun _ => rfl)
      have h2 := hb.symm.trans hst
      simp only [Except.ok.injEq, Prod.mk.injEq] at h2
      exact h2.1
    · intro hdue
      obtain ⟨st', hb, _⟩ := RunOnce.upgradeBody_ok noFaults now row st (fun _ => rfl)
      rw [hdue] at hb
      exact ⟨st', hb⟩
  · obtain ⟨fin, hl, _⟩ :=
      RunOnce.applyScheduledUpgrades_ok noFaults now limit ⟨db, tr⟩ rfl (fun _ => rfl)
    exact ⟨fin, hl⟩

/-- C1 witness: at `now = 50` the sample row, whose pending start is exactly
50, is promoted. -/
theorem upgrade_promotes_iff_due_witness :
    ∃ st', RunOnce.upgradeBody noFaults 50 wRowDue wSt = .ok (true, st') :=
  (upgrade_promotes_iff_due 50 wRowDue wSt wDb [] 2000).1.mpr
    ⟨by decide, 50, rfl, le_refl 50⟩

/-- C2: a scanned active row whose expiry parses is deactivated — the loop
body returns `true` and issues the "expired" update — if and only if `now`
strictly exceeds expiry plus the plan's grace period; on a `false` outcome
the store is unchanged, so a row within grace is left active.  Moreover the
job's count is the number of scanned rows past grace. -/
theorem expiry_deactivates_iff_past_grace (now : Int) (row : SubRow) (st : St)
    (db : DB) (tr : List Call) (limit : Nat) :
    ((∃ st', RunOnce.expireBody noFaults now row st = .ok (true, st')) ↔
       (∃ e, parseTs row.expires_at = some e ∧
         e + RunOnce.graceDaysOf st.db.plans ((row.plan_code.getD "").pyStrip) * day < now)) ∧
    (∀ st', RunOnce.expireBody noFaults now row st = .ok (false, st') → st'.db = st.db) ∧
    (∃ fin, RunOnce.deactivateExpiredSubscriptions noFaults now limit ⟨db, tr⟩ =
      .ok (((db.subs.filter (fun r => r.is_active)).take limit).countP
             (RunOnce.dueForExpiry db.plans now), fin)) := by
  refine ⟨?_, ?_, ?_⟩
  · rw [← RunOnce.dueForExpiry_iff]
    constructor
    · rintro ⟨st', hst⟩
      obtain ⟨st'', hb, _⟩ := RunOnce.expireBody_ok noFaults now row st (fun _ => rfl)
      have h2 := hb.symm.trans hst
      simp only [Except.ok.injEq, Prod.mk.injEq] at h2
      exact h2.1
    · intro hdue
      obtain ⟨st', hb, _⟩ := RunOnce.expireBody_ok noFaults now row st (fun _ => rfl)
      rw [hdue] at hb
      exact ⟨st', hb⟩
  · intro st' h
    exact RunOnce.expireBody_false_db noFaults now row st st' h
  · obtain ⟨fin, hl, _⟩ :=
      RunOnce.deactivateExpiredSubscriptions_ok noFaults now limit ⟨db, tr⟩ rfl (fun _ => rfl)
    exact ⟨fin, hl⟩

/-- C2 witness: the sample row expires at 100 under a plan with no grace
entry, so at `now = 101` it is deactivated. -/
theorem expiry_deactivates_iff_past_grace_witness :
    ∃ st', RunOnce.expireBody noFaults 101 wRowDue wSt = .ok (true, st') :=
  (expiry_deactivates_iff_past_grace 101 wRowDue wSt wDb [] 5000).1.mpr
    ⟨100, rfl, by decide⟩

/-- C3: for every promoted row the loop body issues, in order, the update
clearing the pending fields on the old row, the update marking the account's
active rows inactive with status "replaced", the pending plan read, and then
exactly one insert; the final store is the old rows with pending cleared and
actives replaced plus that single payload, which is the new active row whose
expiry is start plus the pending plan's duration. -/
theorem promotion_clears_replaces_inserts_once (now : Int) (row : SubRow) (st : St)
    (hdue : RunOnce.dueForUpgrade now row = true) :
    ∃ pay, RunOnce.upgradeBody noFaults now row st =
      .ok (true,
        ⟨⟨(st.db.subs.map (RunOnce.clearPendingUpd now row.id)).map
            (RunOnce.replaceActiveUpd now row.account_id) ++ [pay],
          st.db.plans, st.db.usage⟩,
         st.trace ++ Call.updateClearPending row.id ::
           Call.updateDeactivateByAccount row.account_id ::
           (RunOnce.planCalls ((row.pending_plan_code.getD "").pyStrip) ++
            [Call.insertSub pay])⟩) ∧
      pay = RunOnce.newSubPayload now
        (now + RunOnce.durationDaysOf st.db.plans ((row.pending_plan_code.getD "").pyStrip) * day)
        row.account_id ((row.pending_plan_code.getD "").pyStrip) ∧
      pay.is_active = true ∧ pay.status = "active" ∧
      pay.pending_plan_code = none ∧ pay.pending_starts_at = TsVal.null := by
  refine ⟨RunOnce.newSubPayload now
      (now + RunOnce.durationDaysOf st.db.plans ((row.pending_plan_code.getD "").pyStrip) * day)
      row.account_id ((row.pending_plan_code.getD "").pyStrip), ?_, rfl, rfl, rfl, rfl, rfl⟩
  unfold RunOnce.dueForUpgrade at hdue
  cases hp : parseTs row.pending_starts_at with
  | none =>
    rw [hp] at hdue
    exact absurd hdue (by simp)
  | some t =>
    rw [hp] at hdue
    simp only [Bool.and_eq_true, bne_iff_ne, ne_eq, Bool.not_eq_true',
      decide_eq_false_iff_not] at hdue
    obtain ⟨hpp, hlt⟩ := hdue
    unfold RunOnce.upgradeBody
    simp only [hp]
    rw [if_neg hpp, if_neg hlt]
    rw [RunOnce.activateNewSubscription_noFaults]
    simp [noFaults, attemptWrite, List.append_assoc]

/-- C3 witness: promoting the sample row at `now = 60`. -/
theorem promotion_clears_replaces_inserts_once_witness :
    ∃ st', RunOnce.upgradeBody noFaults 60 wRowDue wSt = .ok (true, st') := by
  obtain ⟨pay, h, _⟩ := promotion_clears_replaces_inserts_once 60 wRowDue wSt (by decide)
  exact ⟨_, h⟩

/-- Shape of a successful `_get_plan`: the pure lookup, an unchanged store,
and the trace extended by the plan read. -/
theorem getPlan_ok_shape {f : Faults} {code : String} {st : St} {p : Option Plan}
    {st' : St} (hq : RunOnce.getPlan f code st = .ok (p, st')) :
    p = RunOnce.getPlanPure st.db.plans code ∧ st'.db = st.db ∧
      st'.trace = st.trace ++ RunOnce.planCalls code := by
  unfold RunOnce.getPlan at hq
  by_cases hc : code.pyStrip = ""
  · simp [hc] at hq
    refine ⟨?_, ?_, ?_⟩
    · rw [← hq.1]
      simp [RunOnce.getPlanPure, hc]
    · rw [← hq.2]
    · rw [← hq.2]
      simp [RunOnce.planCalls, hc]
  · by_cases hfp : f.selectPlan code.pyStrip = true
    · simp [hc, hfp] at hq
    · simp [hc, hfp] at hq
      refine ⟨?_, ?_, ?_⟩
      · rw [← hq.1]
        simp [RunOnce.getPlanPure, hc]
      · rw [← hq.2]
      · rw [← hq.2]
        simp [RunOnce.planCalls, hc]

/-- Shape of a successful `_build_expiry_from_plan`: start plus effective
duration, an unchanged store, and the trace extended by the plan read. -/
theorem buildExpiry_ok_shape {f : Faults} {code : String} {starts : Int} {st : St}
    {e : Int} {st' : St}
    (hq : RunOnce.buildExpiryFromPlan f code starts st = .ok (e, st')) :
    e = starts + RunOnce.durationDaysOf st.db.plans code * day ∧ st'.db = st.db ∧
      st'.trace = st.trace ++ RunOnce.planCalls code := by
  unfold RunOnce.buildExpiryFromPlan at hq
  cases hg : RunOnce.getPlan f code st with
  | error err => simp [hg] at hq
  | ok out =>
    obtain ⟨p, st₁⟩ := out
    obtain ⟨hp, hdb, htr⟩ := getPlan_ok_shape hg
    simp [hg] at hq
    refine ⟨?_, ?_, ?_⟩
    · rw [← hq.1, hp]
      unfold RunOnce.durationDaysOf
      rfl
    · rw [← hq.2, hdb]
    · rw [← hq.2, htr]

/-- An insert call never occurs among the calls of a plan lookup. -/
theorem insert_not_mem_planCalls (pay : SubRow) (code : String) :
    Call.insertSub pay ∉ RunOnce.planCalls code := by
  unfold RunOnce.planCalls
  split <;> simp

/-- C9: every row inserted by the job — the only insert site is
`_activate_new_subscription` — is active with status "active", has both
pending fields null, starts at `now`, and expires at start plus the plan's
effective duration; that duration is 30 days whenever the plan is missing or
its `duration_days` field is null or fails integer conversion.  This holds
under every fault assignment on the writes. -/
theorem inserted_row_invariant (f : Faults) (now : Int) (a code : String) (db : DB)
    (tr : List Call) (st' : St)
    (hok : RunOnce.activateNewSubscription f now a code ⟨db, tr⟩ = .ok st')
    (pay : SubRow) (hmem : Call.insertSub pay ∈ st'.trace)
    (hnew : Call.insertSub pay ∉ tr) :
    pay.is_active = true ∧ pay.status = "active" ∧ pay.pending_plan_code = none ∧
    pay.pending_starts_at = TsVal.null ∧ pay.started_at = TsVal.str (some now) ∧
    pay.expires_at = TsVal.str (some (now + RunOnce.durationDaysOf db.plans code * day)) ∧
    ((RunOnce.getPlanPure db.plans code = none ∨
      (∃ pl, RunOnce.getPlanPure db.plans code = some pl ∧ pyToInt pl.duration_days = none)) →
      RunOnce.durationDaysOf db.plans code = 30) := by
  unfold RunOnce.activateNewSubscription at hok
  dsimp only at hok
  cases hb : RunOnce.buildExpiryFromPlan f code now
      (attemptWrite (f.deactivateOthers a) (Call.updateDeactivateByAccount a)
        (fun d => { d with subs := d.subs.map (RunOnce.replaceActiveUpd now a) })
        ⟨db, tr⟩) with
  | error err =>
    rw [hb] at hok
    exact absurd hok (by simp)
  | ok out =>
    obtain ⟨e, st₂⟩ := out
    obtain ⟨he, hdb, htr⟩ := buildExpiry_ok_shape hb
    rw [hb] at hok
    dsimp only at hok
    injection hok with h
    have hpl : (attemptWrite (f.deactivateOthers a) (Call.updateDeactivateByAccount a)
        (fun d => { d with subs := d.subs.map (RunOnce.replaceActiveUpd now a) })
        ⟨db, tr⟩).db.plans = db.plans := by
      unfold attemptWrite
      cases f.deactivateOthers a <;> rfl
    have he' : e = now + RunOnce.durationDaysOf db.plans code * day := by
      rw [he, hpl]
    have htr' : st'.trace =
        ((tr ++ [Call.updateDeactivateByAccount a]) ++ RunOnce.planCalls code) ++
          [Call.insertSub (RunOnce.newSubPayload now e a code)] := by
      rw [← h]
      unfold attemptWrite
      dsimp only
      rw [htr]
      rfl
    rw [htr'] at hmem
    simp only [List.mem_append, List.mem_singleton] at hmem
    rcases hmem with ((hmem | hmem) | hmem) | hmem
    · exact absurd hmem hnew
    · simp at hmem
    · exact absurd hmem (insert_not_mem_planCalls pay code)
    · injection hmem with hpay
      subst hpay
      refine ⟨rfl, rfl, rfl, rfl, rfl, ?_, ?_⟩
      · unfold RunOnce.newSubPayload
        rw [he']
      · intro hcond
        rcases hcond with hnone | ⟨pl, hsome, hto⟩
        · unfold RunOnce.durationDaysOf
          rw [hnone]
        · unfold RunOnce.durationDaysOf
          rw [hsome]
          unfold intOrDefault
          cases hpt : pyTruthy pl.duration_days <;> simp [hpt, hto]

/-- C9 witness payload: what the activation inserts on the sample store. -/
def wPayload : SubRow :=
  RunOnce.newSubPayload 0 (0 + RunOnce.durationDaysOf wDb.plans "pro" * day) "a1" "pro"

/-- C9 witness final state of the sample activation. -/
def wActSt : St :=
  ⟨⟨wDb.subs.map (RunOnce.replaceActiveUpd 0 "a1") ++ [wPayload], wDb.plans, wDb.usage⟩,
   [Call.updateDeactivateByAccount "a1"] ++ RunOnce.planCalls "pro" ++
     [Call.insertSub wPayload]⟩

/-- C9 witness: the row inserted by the sample activation satisfies the
invariant. -/
theorem inserted_row_invariant_witness :
    wPayload.is_active = true ∧ wPayload.status = "active" ∧
    wPayload.pending_plan_code = none ∧ wPayload.pending_starts_at = TsVal.null ∧
    wPayload.started_at = TsVal.str (some 0) ∧
    wPayload.expires_at = TsVal.str (some (0 + RunOnce.durationDaysOf wDb.plans "pro" * day)) ∧
    ((RunOnce.getPlanPure wDb.plans "pro" = none ∨
      (∃ pl, RunOnce.getPlanPure wDb.plans "pro" = some pl ∧ pyToInt pl.duration_days = none)) →
      RunOnce.durationDaysOf wDb.plans "pro" = 30) :=
  inserted_row_invariant noFaults 0 "a1" "pro" wDb [] wActSt (by rfl) wPayload
    (by decide) (by decide)

/-- C10: timestamp parsing is total — a null field, a non-string field and a
malformed string all parse to `none` instead of raising — and a scanned row
whose pending start (for the upgrade job) or expiry (for the expiry job)
does not parse is silently skipped under every fault assignment: the loop
body returns `false`, so the row contributes nothing to the count, and the
state is untouched. -/
theorem unparsable_timestamps_skipped (f : Faults) (now : Int) (row : SubRow) (st : St) :
    (parseTs TsVal.null = none ∧ parseTs TsVal.other = none ∧
     parseTs (TsVal.str none) = none) ∧
    (parseTs row.pending_starts_at = none →
      RunOnce.upgradeBody f now row st = .ok (false, st)) ∧
    (parseTs row.expires_at = none →
      RunOnce.expireBody f now row st = .ok (false, st)) := by
  refine ⟨⟨rfl, rfl, rfl⟩, ?_, ?_⟩
  · intro hp
    unfold RunOnce.upgradeBody
    simp [hp]
  · intro hp
    unfold RunOnce.expireBody
    simp [hp]

/-- C10 witness: the sample row with a non-string pending start and a
malformed expiry string is skipped by both loop bodies. -/
theorem unparsable_timestamps_skipped_witness :
    RunOnce.upgradeBody noFaults 0 wRowBadTs wSt = .ok (false, wSt) :=
  (unparsable_timestamps_skipped noFaults 0 wRowBadTs wSt).2.1 rfl

/-- C7: module startup raises `RuntimeError` exactly when either credential
strips to the empty string — an unset variable strips to empty — and
otherwise proceeds to create the client from the stripped values without
raising.  The check runs at module load, before any job function exists to
be called. -/
theorem startup_requires_credentials (env_url env_key : Option String) :
    envStrip Option.none = "" ∧
    ((envStrip env_url = "" ∨ envStrip env_key = "") ↔
      moduleStartup env_url env_key =
        Except.error "Missing SUPABASE_URL / SUPABASE_SERVICE_ROLE_KEY") ∧
    ((envStrip env_url ≠ "" ∧ envStrip env_key ≠ "") ↔
      moduleStartup env_url env_key =
        Except.ok { url := envStrip env_url, key := envStrip env_key }) := by
  refine ⟨rfl, ?_, ?_⟩ <;>
    unfold moduleStartup <;>
    by_cases h1 : envStrip env_url = "" <;>
    by_cases h2 : envStrip env_key = "" <;>
    simp [h1, h2]

/-- C7 witness: with both credentials present, startup returns the client;
the same theorem applied to a blank url yields the error. -/
theorem startup_requires_credentials_witness :
    moduleStartup (some "https://x.supabase.co") (some "key1") =
      Except.ok { url := "https://x.supabase.co", key := "key1" } :=
  (startup_requires_credentials (some "https://x.supabase.co") (some "key1")).2.2.mp
    ⟨by decide, by decide⟩

/-- C4: the package entry point is broken: `__main__.py` pulls the name
`run_once` from module `.run_once`, but that module binds no such name —
only `main` and the job functions — so `python -m app.scheduler` fails with
ImportError before any job runs and never emits the three counts. -/
theorem entry_point_import_is_broken :
    runOnceModuleNames.contains entryImportedName = false ∧
    entryPointLoad =
      Except.error "ImportError: cannot import name run_once from app.scheduler.run_once" := by
  exact ⟨by decide, by rfl⟩

/-- C5 counterexample: the claim that every remote failure, read or write,
is caught is false — a fault on the scan select (a remote read) escapes
`apply_scheduled_upgrades` as an exception. -/
theorem read_fault_escapes_the_job :
    RunOnce.applyScheduledUpgrades { noFaults with selectSubs := true } 0 2000
      ⟨⟨[], [], []⟩, []⟩ = Except.error () := by rfl

/-- C5 amended: failures of remote writes never halt the jobs — when the
reads (the scan select and the plan lookups) do not fault, both subscription
jobs return a count under every fault assignment on the writes, and the
usage cleanup returns without exception under every fault assignment
whatsoever; but a read failure propagates (see the counterexample). -/
theorem write_faults_never_halt (f : Faults) (now today keep : Int) (limit : Nat)
    (st : St) (hsel : f.selectSubs = false) (hplan : ∀ c, f.selectPlan c = false) :
    (∃ out, RunOnce.applyScheduledUpgrades f now limit st = .ok out) ∧
    (∃ out, RunOnce.deactivateExpiredSubscriptions f now limit st = .ok out) ∧
    (∀ g : Faults, ∃ out, RunOnce.cleanupDailyQuestionUsage g today keep limit st = .ok out) := by
  refine ⟨?_, ?_, ?_⟩
  · obtain ⟨fin, hl, _⟩ := RunOnce.applyScheduledUpgrades_ok f now limit st hsel hplan
    exact ⟨_, hl⟩
  · obtain ⟨fin, hl, _⟩ := RunOnce.deactivateExpiredSubscriptions_ok f now limit st hsel hplan
    exact ⟨_, hl⟩
  · intro g
    unfold RunOnce.cleanupDailyQuestionUsage
    by_cases hd : g.deleteUsage = true
    · rw [if_pos hd]
      exact ⟨_, rfl⟩
    · rw [if_neg hd]
      cases hdel : RunOnce.deleteOldUsage (today - keep) limit st.db.usage with
      | mk rem n => exact ⟨_, rfl⟩

/-- Fault assignment failing every remote write, used by the C5 witness. -/
def wWriteFaults : Faults where
  selectSubs := false
  selectPlan := fun _ => false
  clearPending := fun _ => true
  deactivateOthers := fun _ => true
  insertSub := fun _ => true
  deactivateRow := fun _ => true
  deleteUsage := true

/-- C5 witness: with every write faulting but reads succeeding, the upgrade
job still returns a count on the sample store. -/
theorem write_faults_never_halt_witness :
    ∃ out, RunOnce.applyScheduledUpgrades wWriteFaults 50 2000 wSt = .ok out :=
  (write_faults_never_halt wWriteFaults 50 50 45 2000 wSt rfl (fun _ => rfl)).1

/-- C6: the usage cleanup deletes only rows strictly older than the cutoff
`today - keep_days` — exactly all of them whenever they number at most the
row limit — deletes at most `limit` rows, leaves every row at or past the
cutoff in place, and returns the number deleted, which is 0 with the store
untouched when the delete faults; the defaults taken at main's call site are
45 days and 5000 rows. -/
theorem cleanup_deletes_only_old_rows (f : Faults) (today keep : Int) (limit : Nat)
    (st : St) :
    (f.deleteUsage = true →
      RunOnce.cleanupDailyQuestionUsage f today keep limit st = .ok (0, st)) ∧
    (∀ n st', f.deleteUsage = false →
      RunOnce.cleanupDailyQuestionUsage f today keep limit st = .ok (n, st') →
      n = min limit ((st.db.usage.filter (fun u => decide (u.day < today - keep))).length) ∧
      st'.db.usage.filter (fun u => !decide (u.day < today - keep)) =
        st.db.usage.filter (fun u => !decide (u.day < today - keep)) ∧
      n + st'.db.usage.length = st.db.usage.length ∧
      (∀ u ∈ st'.db.usage, u ∈ st.db.usage) ∧
      ((st.db.usage.filter (fun u => decide (u.day < today - keep))).length ≤ limit →
        st'.db.usage = st.db.usage.filter (fun u => !decide (u.day < today - keep))) ∧
      st'.db.subs = st.db.subs ∧ st'.db.plans = st.db.plans) ∧
    RunOnce.keepDaysDefault = 45 ∧ RunOnce.cleanupLimitDefault = 5000 := by
  refine ⟨?_, ?_, rfl, rfl⟩
  · intro hd
    unfold RunOnce.cleanupDailyQuestionUsage
    rw [if_pos hd]
  · intro n st' hd hok
    unfold RunOnce.cleanupDailyQuestionUsage at hok
    rw [if_neg (by simp [hd])] at hok
    cases hdel : RunOnce.deleteOldUsage (today - keep) limit st.db.usage with
    | mk rem m =>
      rw [hdel] at hok
      dsimp only at hok
      injection hok with h
      injection h with h1 h2
      have hc := RunOnce.deleteOldUsage_count (today - keep) limit st.db.usage
      have hk := RunOnce.deleteOldUsage_keeps_new (today - keep) limit st.db.usage
      have hl := RunOnce.deleteOldUsage_length (today - keep) limit st.db.usage
      have hs := RunOnce.deleteOldUsage_subset (today - keep) limit st.db.usage
      have hx := RunOnce.deleteOldUsage_exact (today - keep) limit st.db.usage
      rw [hdel] at hc hk hl hs hx
      refine ⟨?_, ?_, ?_, ?_, ?_, ?_, ?_⟩
      · rw [← h1]; exact hc
      · rw [← h2]; exact hk
      · rw [← h1, ← h2]; exact hl
      · rw [← h2]; exact hs
      · intro hfit; rw [← h2]; exact hx hfit
      · rw [← h2]
      · rw [← h2]

/-- C6 witness state: the sample store after cleaning with cutoff 5. -/
def wCleanSt : St := ⟨⟨wDb.subs, wDb.plans, [⟨100⟩]⟩, [Call.deleteUsage]⟩

/-- C6 witness: on the sample store with cutoff day 5 exactly one usage row
is deleted and one remains. -/
theorem cleanup_deletes_only_old_rows_witness :
    1 + wCleanSt.db.usage.length = wSt.db.usage.length :=
  ((cleanup_deletes_only_old_rows noFaults 50 45 5000 wSt).2.1 1 wCleanSt rfl
    (by rfl)).2.2.1

/-- C8 counterexample: the claim that some execution of the job issues a
credit-expiry remote procedure call is false — no run of either run_once.py
job, and no run of the run_jobs.py activation helper, ever logs an rpc. -/
theorem no_execution_issues_rpc :
    ¬ ((∃ f : Faults, ∃ now : Int, ∃ limit : Nat, ∃ db : DB, ∃ n : Nat, ∃ fin : St,
        ∃ nm : String,
          RunOnce.applyScheduledUpgrades f now limit ⟨db, []⟩ = .ok (n, fin) ∧
          Call.rpc nm ∈ fin.trace) ∨
       (∃ f : Faults, ∃ now : Int, ∃ limit : Nat, ∃ db : DB, ∃ n : Nat, ∃ fin : St,
        ∃ nm : String,
          RunOnce.deactivateExpiredSubscriptions f now limit ⟨db, []⟩ = .ok (n, fin) ∧
          Call.rpc nm ∈ fin.trace) ∨
       (∃ f : Faults, ∃ now : Int, ∃ a : String, ∃ code : String, ∃ db : DB, ∃ st' : St,
        ∃ nm : String,
          RunJobs.activateNewSubscription f now a code ⟨db, []⟩ = .ok st' ∧
          Call.rpc nm ∈ st'.trace)) := by
  rintro (⟨f, now, limit, db, n, fin, nm, hok, hmem⟩ |
          ⟨f, now, limit, db, n, fin, nm, hok, hmem⟩ |
          ⟨f, now, a, code, db, st', nm, hok, hmem⟩)
  · have := RunOnce.noRpc_applyScheduledUpgrades hok noRpc_nil (Call.rpc nm) hmem
    simp [Call.isRpc] at this
  · have := RunOnce.noRpc_deactivateExpired hok noRpc_nil (Call.rpc nm) hmem
    simp [Call.isRpc] at this
  · have := RunJobs.noRpcJobs_activate hok noRpc_nil (Call.rpc nm) hmem
    simp [Call.isRpc] at this

/-- C8 amended: the scheduler never issues a remote procedure call: every
successful run of either run_once.py job, and of the run_jobs.py activation
helper, has an rpc-free trace; the credit reset is left to the API, as the
activation helper's docstring notes. -/
theorem scheduler_issues_no_rpc (f : Faults) (now : Int) (limit : Nat) (db : DB)
    (n : Nat) (fin : St) (a code nm : String) (st' : St) :
    (RunOnce.applyScheduledUpgrades f now limit ⟨db, []⟩ = .ok (n, fin) →
      Call.rpc nm ∉ fin.trace) ∧
    (RunOnce.deactivateExpiredSubscriptions f now limit ⟨db, []⟩ = .ok (n, fin) →
      Call.rpc nm ∉ fin.trace) ∧
    (RunJobs.activateNewSubscription f now a code ⟨db, []⟩ = .ok st' →
      Call.rpc nm ∉ st'.trace) := by
  refine ⟨fun hok hmem => ?_, fun hok hmem => ?_, fun hok hmem => ?_⟩
  · have := RunOnce.noRpc_applyScheduledUpgrades hok noRpc_nil (Call.rpc nm) hmem
    simp [Call.isRpc] at this
  · have := RunOnce.noRpc_deactivateExpired hok noRpc_nil (Call.rpc nm) hmem
    simp [Call.isRpc] at this
  · have := RunJobs.noRpcJobs_activate hok noRpc_nil (Call.rpc nm) hmem
    simp [Call.isRpc] at this

/-- C8 witness: on the empty store the upgrade job logs only the scan
select; in particular no credit-expiry rpc appears in its trace. -/
theorem scheduler_issues_no_rpc_witness :
    Call.rpc "expire_credits" ∉ (St.mk ⟨[], [], []⟩ [Call.selectSubs]).trace :=
  (scheduler_issues_no_rpc noFaults 0 2000 ⟨[], [], []⟩ 0 ⟨⟨[], [], []⟩, [Call.selectSubs]⟩
    "a" "p" "expire_credits" ⟨⟨[], [], []⟩, []⟩).1 (by rfl)
